import Mathlib

/-! Verification development for the prize-wheel bot backend
(`src/index.js` route handlers and fallback engine, plus the
`FirebaseService` persistence layer in `src/unnamed/part_001`).

The Firestore document collections are embedded as association lists keyed
by natural-number document ids; `doc.set` / `doc.update` / `doc.delete`
become `setKey` / `setKey` / `removeKey`, and the collection queries the
routes issue (`where referrerId ==`, `where spinId ==`, counting snapshot
sizes) become the corresponding list filters.  The Telegram notifier is an
external collaborator: an emitted message is recorded in the returned
notification list, and `notifyOk` says whether `sendMessage` succeeds or
throws (a throw is caught by the surrounding `try`/`catch` in the source).
`Math.random()` is made explicit as a rational draw `u` passed to the
prize selector.
-/

namespace Wheel

/-- JavaScript `x || d` on a numeric config field: `0` (and an absent
field, which we encode as `0`) is falsy and is replaced by the default
`d`.  Used by the routes for `botData.baseAttempts || 2`,
`botData.referralBonus || 2` and `item.weight || 10`. -/
def jsOr (x d : Nat) : Nat := if x = 0 then d else x

/-- Per-bot configuration document (`bots/{botId}` in `src/index.js`).
`leadsChannel` records whether a leads channel is configured (the routes
only test its truthiness). -/
structure BotData where
  baseAttempts : Nat
  referralBonus : Nat
  leadsChannel : Bool
deriving DecidableEq

/-- User statistics document (`users/{userId}`), the fields the quota
logic reads. -/
structure UserRec where
  totalSpins : Nat
deriving DecidableEq

/-- Spin document (`spins/{spinId}`); the key of the document is the
time-derived spin id. -/
structure SpinRec where
  userId : Nat
  prize : String
  isLeadCollected : Bool
deriving DecidableEq

/-- Referral edge document body used by `FirebaseService.addReferral`
(`src/unnamed/part_001`). -/
structure RefEdge where
  referrerId : Nat
  referredId : Nat
deriving DecidableEq

/-- Lead document (`leads/{userId}`): keyed by the user id, carrying the
spin id it was submitted for. -/
structure LeadDoc where
  userId : Nat
  spinId : Nat
  name : String
  phone : String
deriving DecidableEq

/-- Status field of a fallback task document: `scheduleFallbackLead`
writes `'pending'`, `checkFallback` writes `'sent'`; no other value is
ever written by the source. -/
inductive FbStatus
  | pending
  | sent
deriving DecidableEq

/-- Fallback task document (`fallbacks/{spinId}` in `src/index.js`). -/
structure FallbackTask where
  userId : Nat
  prize : String
  sent : Bool
  status : FbStatus
deriving DecidableEq

/-- Firestore `collection.doc(k).get()`: the document whose id matches
(document ids are unique within a collection, so the first match is the
document). -/
def lookupKey {α : Type} : List (Nat × α) → Nat → Option α
  | [], _ => none
  | p :: t, k => if p.1 = k then some p.2 else lookupKey t k

/-- Firestore `collection.doc(k).set(v)`: replace the document with id
`k`, creating it if absent. -/
def setKey {α : Type} : List (Nat × α) → Nat → α → List (Nat × α)
  | [], k, v => [(k, v)]
  | p :: t, k, v => if p.1 = k then (k, v) :: t else p :: setKey t k v

/-- Firestore `collection.doc(k).delete()`. -/
def removeKey {α : Type} : List (Nat × α) → Nat → List (Nat × α)
  | [], _ => []
  | p :: t, k => if p.1 = k then removeKey t k else p :: removeKey t k

/-- Number of documents in the collection with id `k`. -/
def keyCount {α : Type} (l : List (Nat × α)) (k : Nat) : Nat :=
  (l.filter (fun p => p.1 == k)).length

/-- The per-bot document collections that the claims touch.  `referrals`
is the `referrals` collection of `src/index.js`, whose document id is the
ordered pair `referrerId_userId` (the document body repeats the pair, so
the pair itself is the whole content). -/
structure Store where
  users : List (Nat × UserRec)
  spins : List (Nat × SpinRec)
  referrals : List (Nat × Nat)
  leads : List (Nat × LeadDoc)
  fallbacks : List (Nat × FallbackTask)
deriving DecidableEq

/-- Messages delivered to the Telegram leads channel. -/
inductive Notif
  | fullLead (spinId : Nat)
  | fallback (spinId : Nat)
deriving DecidableEq

/-- `userDoc.data().totalSpins || 0` as read by the status and spin
routes. -/
def spinsTotalOf (s : Store) (uid : Nat) : Nat :=
  match lookupKey s.users uid with
  | some u => u.totalSpins
  | none => 0

/-- `referrals.where('referrerId','==',userId).get().size`: the routes
count referral documents whose key starts with `uid`. -/
def referralCountOf (s : Store) (uid : Nat) : Nat :=
  (s.referrals.filter (fun p => p.1 == uid)).length

/-- `baseAttempts + referralBonus * totalReferrals` with the JS `|| 2`
defaults, recomputed from the store exactly as both the status route
(lines 204-208) and the spin route (lines 274-282) of `src/index.js`
do. -/
def attemptsGranted (bot : BotData) (s : Store) (uid : Nat) : Nat :=
  jsOr bot.baseAttempts 2 + jsOr bot.referralBonus 2 * referralCountOf s uid

/-- `Math.max(0, attemptsGranted - totalSpins)` as returned by the status
route. -/
def statusAttemptsLeft (bot : BotData) (s : Store) (uid : Nat) : Int :=
  max 0 ((attemptsGranted bot s uid : Int) - (spinsTotalOf s uid : Int))

/-- Stated from the spec (for comparison with the code):
`attemptsLeft = max(0, base + bonus*referrals - spins)` over the raw
configured values. -/
def specAttemptsLeft (base bonus refs spins : Nat) : Int :=
  max 0 ((base : Int) + (bonus : Int) * (refs : Int) - (spins : Int))

/-- One wheel item as stored in the `wheelItems` collection; only the
weight matters to the selector, the label is carried along. -/
structure WheelItem where
  label : String
  weight : Int
deriving DecidableEq

/-- `item.weight || 10`: a zero (or absent) weight is falsy in JS and is
replaced by the default `10`; negative weights pass through unchanged. -/
def effWeight (w : Int) : Int := if w = 0 then 10 else w

/-- The selection loop of the spin route (`src/index.js` lines 294-301):
`randomWeight -= weight; if (randomWeight <= 0) break` over the items,
returning the index of the selected item, or `none` when the loop runs
off the end without the test firing. -/
def selectWalk : List Int → ℚ → Nat → Option Nat
  | [], _, _ => none
  | w :: ws, r, i => if r - (w : ℚ) ≤ 0 then some i else selectWalk ws (r - (w : ℚ)) (i + 1)

/-- The prize selector of the spin route: `totalWeight` sums the
`|| 10`-defaulted weights, `randomWeight = u * totalWeight` for the
`Math.random()` draw `u`, and `selectedPrize` starts at `wheelItems[0]`,
which is the result when the loop never fires. -/
def selectPrizeIdx (items : List WheelItem) (u : ℚ) : Nat :=
  let ws := items.map (fun it => effWeight it.weight)
  let total : Int := ws.sum
  (selectWalk ws (u * (total : ℚ)) 0).getD 0

/-- Stated from the spec (for comparison with the code): the clamped
total weight `Σ max(weight,0)` whose non-positivity is supposed to
trigger the uniform fallback. -/
def specTotalClamped (items : List WheelItem) : Int :=
  (items.map (fun it => max it.weight 0)).sum

/-- Midpoint of the k-th of N equal subintervals of the unit interval:
a draw grid avoiding the breakpoints of the selector's step function. -/
def gridPoint (k n : Nat) : ℚ := (2 * (k : ℚ) + 1) / (2 * (n : ℚ))

/-- How many draws of the N-point midpoint grid select item `i`. -/
def gridCount (items : List WheelItem) (n i : Nat) : Nat :=
  ((List.range n).filter (fun k => selectPrizeIdx items (gridPoint k n) == i)).length

/-- Uniform selection, sampled on the N-point midpoint grid: every item
is selected by the same share `N / length` of the draws. -/
def uniformOnGrid (items : List WheelItem) (n : Nat) : Prop :=
  ∀ i, i < items.length → gridCount items n i * items.length = n

/-- A wheel whose configured weights are all zero. -/
def zeroCfg (n : Nat) : List WheelItem := List.replicate n ⟨"z", 0⟩

/-- A two-item wheel with negative weights, so `Σ max(weight,0) = 0`. -/
def negCfg : List WheelItem := [⟨"a", -1⟩, ⟨"b", -1⟩]

/-- The spin route can only reject for quota (after the subscription
gate, which is an excluded external collaborator). -/
inductive SpinErr
  | quotaExceeded
deriving DecidableEq

/-- The JSON body of a successful spin response. -/
structure SpinOk where
  spinId : Nat
  prize : String
  attemptsLeft : Int
deriving DecidableEq

/-- The spin route of `src/index.js` (lines 264-351), after the
subscription gate: re-read `totalSpins` and the referral count, reject
with the quota error when `totalSpins >= attemptsGranted`, otherwise
write the spin document keyed by the fresh time-derived id `t`, bump the
user counter, credit the referrer when `referrerId` is truthy and
differs from the user (the route's doc-id keyed `set` keeps one document
per ordered pair), and schedule the pending fallback task under the same
id.  The selected prize label is passed in (`selectPrizeIdx` models its
computation). -/
def recordSpin (bot : BotData) (s : Store) (uid : Nat) (referrerId : Option Nat)
    (t : Nat) (prize : String) : Except SpinErr (SpinOk × Store) :=
  let totalSpins := spinsTotalOf s uid
  let granted := attemptsGranted bot s uid
  if totalSpins ≥ granted then .error .quotaExceeded
  else
    let s1 := { s with spins := setKey s.spins t ⟨uid, prize, false⟩ }
    let s2 := { s1 with users := setKey s1.users uid ⟨totalSpins + 1⟩ }
    let s3 :=
      match referrerId with
      | some r =>
        if r ≠ 0 ∧ r ≠ uid then
          { s2 with referrals :=
              if (r, uid) ∈ s2.referrals then s2.referrals else s2.referrals ++ [(r, uid)] }
        else s2
      | none => s2
    let s4 := { s3 with fallbacks := setKey s3.fallbacks t ⟨uid, prize, false, .pending⟩ }
    .ok (⟨t, prize, (granted : Int) - ((totalSpins : Int) + 1)⟩, s4)

/-- Does the spin route reject with the quota error? -/
def isQuotaErr {α : Type} : Except SpinErr α → Bool
  | .error .quotaExceeded => true
  | _ => false

/-- A sequence of spin calls by the same user with the given fresh spin
ids, stopping with `none` as soon as one call is rejected. -/
def runSpins (bot : BotData) (uid : Nat) (pz : String) : List Nat → Store → Option Store
  | [], s => some s
  | t :: ts, s =>
    match recordSpin bot s uid none t pz with
    | .ok (_, s') => runSpins bot uid pz ts s'
    | .error _ => none

/-- The lead route of `src/index.js` (lines 362-428): 404 unless the spin
document exists and belongs to the caller; otherwise write the lead
document keyed by the USER id (merge), flip `isLeadCollected` on the
spin, and then try to notify the leads channel inside its own
`try`/`catch` — a notifier failure (`notifyOk = false`) is logged and
swallowed, and the route answers success either way. -/
def submitLead (bot : BotData) (notifyOk : Bool) (s : Store) (uid spinId : Nat)
    (name phone : String) : Except Unit (Store × List Notif) :=
  match lookupKey s.spins spinId with
  | none => .error ()
  | some spin =>
    if spin.userId ≠ uid then .error ()
    else
      let s1 := { s with leads := setKey s.leads uid ⟨uid, spinId, name, phone⟩ }
      let s2 := { s1 with spins := setKey s1.spins spinId { spin with isLeadCollected := true } }
      .ok (s2, if bot.leadsChannel && notifyOk then [Notif.fullLead spinId] else [])

/-- Is there a lead document whose `spinId` field matches?  This is the
`leads.where('spinId','==',spinId).limit(1)` query of `checkFallback`. -/
def leadExistsFor (s : Store) (spinId : Nat) : Bool :=
  s.leads.any (fun p => p.2.spinId == spinId)

/-- `checkFallback` of `src/index.js` (lines 712-763), the resolution
path invoked both by the spin route's timer and by the
`processExpiredFallbacks` sweep.  If the task is absent, nothing
happens.  If no lead matches the spin and the task is unsent, and a
leads channel is configured, the fallback message is sent and only THEN
is the task updated to `sent`; when `sendMessage` throws
(`notifyOk = false`) the outer `catch` swallows the error before the
update runs, so the store is untouched.  If a lead matches, the task
document is deleted. -/
def checkFallback (bot : BotData) (notifyOk : Bool) (s : Store) (spinId : Nat) :
    Store × List Notif :=
  match lookupKey s.fallbacks spinId with
  | none => (s, [])
  | some fb =>
    let leadFound := leadExistsFor s spinId
    if !leadFound && !fb.sent then
      if bot.leadsChannel then
        if notifyOk then
          ({ s with fallbacks := setKey s.fallbacks spinId { fb with sent := true, status := .sent } },
           [Notif.fallback spinId])
        else (s, [])
      else (s, [])
    else if leadFound then
      ({ s with fallbacks := removeKey s.fallbacks spinId }, [])
    else (s, [])

namespace FirebaseService

/-- `FirebaseService.addReferral` (`src/unnamed/part_001` lines 110-128):
query for an edge with the same ordered pair; if one exists answer
`{exists: true}` (nothing created), otherwise append the edge.  The
boolean returned here is whether a document was created. -/
def addReferral (edges : List Wheel.RefEdge) (referrerId referredId : Nat) :
    Bool × List Wheel.RefEdge :=
  if edges.any (fun e => e.referrerId == referrerId && e.referredId == referredId) then
    (false, edges)
  else
    (true, edges ++ [⟨referrerId, referredId⟩])

/-- `FirebaseService.countReferrals`: size of the snapshot of edges with
the given referrer. -/
def countReferrals (edges : List Wheel.RefEdge) (uid : Nat) : Nat :=
  (edges.filter (fun e => e.referrerId == uid)).length

/-- Number of edges with a given ordered pair (for the at-most-one-edge
invariant). -/
def pairCount (edges : List Wheel.RefEdge) (a b : Nat) : Nat :=
  (edges.filter (fun e => e.referrerId == a && e.referredId == b)).length

end FirebaseService

/-! Association-list facts used by the claim proofs. -/

theorem lookup_setKey {α : Type} (l : List (Nat × α)) (k q : Nat) (v : α) :
    lookupKey (setKey l k v) q = if q = k then some v else lookupKey l q := by
  induction l with
  | nil => by_cases hq : q = k <;> simp [setKey, lookupKey, hq, Ne.symm]
  | cons p t ih =>
    by_cases hp : p.1 = k
    · by_cases hq : q = k <;>
        simp [setKey, lookupKey, hp, hq, Ne.symm]
    · by_cases hpq : p.1 = q
      · have hq : ¬ q = k := fun h => hp (hpq.trans h)
        simp [setKey, lookupKey, hp, hpq, hq]
      · simpa [setKey, lookupKey, hp, hpq] using ih

theorem lookup_removeKey {α : Type} (l : List (Nat × α)) (k q : Nat) :
    lookupKey (removeKey l k) q = if q = k then none else lookupKey l q := by
  induction l with
  | nil => by_cases hq : q = k <;> simp [removeKey, lookupKey, hq]
  | cons p t ih =>
    by_cases hp : p.1 = k
    · by_cases hq : q = k
      · simpa [removeKey, hp, hq] using ih
      · have hpq : ¬ p.1 = q := fun h => hq (h ▸ hp ▸ rfl)
        have hkq : ¬ k = q := fun h => hq h.symm
        simpa [removeKey, lookupKey, hp, hq, hpq, hkq] using ih
    · by_cases hpq : p.1 = q
      · have hq : ¬ q = k := fun h => hp (hpq ▸ h)
        simp [removeKey, lookupKey, hp, hpq, hq]
      · simpa [removeKey, lookupKey, hp, hpq] using ih

theorem mem_setKey {α : Type} {l : List (Nat × α)} {k : Nat} {v : α} {p : Nat × α}
    (hp : p ∈ setKey l k v) : p ∈ l ∨ p = (k, v) := by
  induction l with
  | nil => simpa [setKey] using hp
  | cons q t ih =>
    by_cases hq : q.1 = k
    · rw [setKey, if_pos hq] at hp
      rcases List.mem_cons.mp hp with h1 | h1
      · exact .inr h1
      · exact .inl (List.mem_cons_of_mem q h1)
    · rw [setKey, if_neg hq] at hp
      rcases List.mem_cons.mp hp with h1 | h1
      · exact .inl (h1 ▸ List.mem_cons_self q t)
      · rcases ih h1 with h2 | h2
        · exact .inl (List.mem_cons_of_mem q h2)
        · exact .inr h2

theorem keyCount_setKey_le_one {α : Type} (l : List (Nat × α)) (k : Nat) (v : α)
    (h : keyCount l k ≤ 1) : keyCount (setKey l k v) k = 1 := by
  induction l with
  | nil => simp [setKey, keyCount]
  | cons p t ih =>
    by_cases hp : p.1 = k
    · have hp' : (p.1 == k) = true := by simp [hp]
      have ht : keyCount t k = 0 := by
        have : keyCount (p :: t) k = keyCount t k + 1 := by
          simp [keyCount, List.filter_cons, hp']
        omega
      have ht0 : t.filter (fun p => p.1 == k) = [] :=
        List.length_eq_zero.mp ht
      simp [setKey, hp, keyCount, List.filter_cons, ht0]
    · have hp' : (p.1 == k) = false := by simp [hp]
      have ht : keyCount t k ≤ 1 := by
        have : keyCount (p :: t) k = keyCount t k := by
          simp [keyCount, List.filter_cons, hp']
        omega
      have := ih ht
      simp only [setKey, if_neg hp]
      simpa [keyCount, List.filter_cons, hp'] using this

/-! Facts about the prize selector on degenerate weight vectors. -/

theorem gp_le_iff (m k : Nat) (hm : 0 < m) :
    (5 * (2 * (k : ℚ) + 1)) / (m : ℚ) ≤ 10 ↔ k < m := by
  have hm' : (0 : ℚ) < m := by exact_mod_cast hm
  rw [div_le_iff₀ hm']
  constructor
  · intro h
    by_contra hc
    push_neg at hc
    have hmk : (m : ℚ) ≤ k := by exact_mod_cast hc
    linarith
  · intro h
    have hk1 : (k : ℚ) + 1 ≤ m := by exact_mod_cast h
    linarith

theorem walk_rep (m : Nat) (hm : 0 < m) :
    ∀ n k i : Nat, k < n * m →
      selectWalk (List.replicate n (10 : Int)) ((5 * (2 * (k : ℚ) + 1)) / (m : ℚ)) i =
        some (i + k / m) := by
  intro n
  induction n with
  | zero => intro k i hk; simp at hk
  | succ n ih =>
    intro k i hk
    rw [List.replicate_succ]
    rcases Nat.lt_or_ge k m with hkm | hkm
    · have hle : (5 * (2 * (k : ℚ) + 1)) / (m : ℚ) - ((10 : Int) : ℚ) ≤ 0 := by
        have := (gp_le_iff m k hm).mpr hkm
        push_cast
        linarith
      rw [selectWalk, if_pos hle, Nat.div_eq_of_lt hkm]
      rfl
    · have hgt : ¬ ((5 * (2 * (k : ℚ) + 1)) / (m : ℚ) - ((10 : Int) : ℚ) ≤ 0) := by
        intro hc
        have hle10 : (5 * (2 * (k : ℚ) + 1)) / (m : ℚ) ≤ 10 := by
          push_cast at hc
          linarith
        have := (gp_le_iff m k hm).mp hle10
        omega
      rw [selectWalk, if_neg hgt]
      have hm' : (m : ℚ) ≠ 0 := by
        exact_mod_cast hm.ne'
      have harg : (5 * (2 * (k : ℚ) + 1)) / (m : ℚ) - ((10 : Int) : ℚ) =
          (5 * (2 * ((k - m : Nat) : ℚ) + 1)) / (m : ℚ) := by
        rw [Nat.cast_sub hkm]
        push_cast
        field_simp
        ring
      rw [harg]
      have hnm : (n + 1) * m = n * m + m := by ring
      have hk' : k - m < n * m := by omega
      rw [ih (k - m) (i + 1) hk']
      have hdiv : k / m = (k - m) / m + 1 := Nat.div_eq_sub_div hm hkm
      rw [hdiv]
      congr 1
      omega

theorem select_zeroCfg (n m k : Nat) (hm : 0 < m) (hk : k < n * m) :
    selectPrizeIdx (zeroCfg n) (gridPoint k (n * m)) = k / m := by
  have hn : 0 < n := by
    rcases Nat.eq_zero_or_pos n with h | h
    · subst h; simp at hk
    · exact h
  have hmap : (zeroCfg n).map (fun it => effWeight it.weight) = List.replicate n (10 : Int) := by
    simp [zeroCfg, effWeight, List.map_replicate]
  have hsum : (List.replicate n (10 : Int)).sum = ((10 * n : Nat) : Int) := by
    simp [List.sum_replicate]
    ring
  have harg : gridPoint k (n * m) * (((10 * n : Nat) : Int) : ℚ) =
      (5 * (2 * (k : ℚ) + 1)) / (m : ℚ) := by
    unfold gridPoint
    have hn' : (n : ℚ) ≠ 0 := by exact_mod_cast hn.ne'
    have hm' : (m : ℚ) ≠ 0 := by exact_mod_cast hm.ne'
    push_cast
    field_simp
    ring
  simp only [selectPrizeIdx, hmap, hsum, harg]
  rw [walk_rep m hm n k 0 hk]
  simp

theorem count_div (m i : Nat) (hm : 0 < m) :
    ∀ n, i < n → ((List.range (n * m)).filter (fun k => k / m == i)).length = m := by
  intro n
  induction n with
  | zero => intro h; omega
  | succ n ih =>
    intro hi
    have hsplit : List.range ((n + 1) * m) =
        List.range (n * m) ++ (List.range m).map (fun j => n * m + j) := by
      have h : (n + 1) * m = n * m + m := by ring
      rw [h, List.range_add]
    have hval : ∀ j, j < m → (n * m + j) / m = n + j / m := by
      intro j _
      rw [Nat.add_comm (n * m) j, Nat.add_mul_div_right j n hm, Nat.add_comm]
    rw [hsplit, List.filter_append, List.length_append]
    rcases Nat.lt_or_ge i n with hin | hin
    · have h2 : ((List.range m).map (fun j => n * m + j)).filter (fun k => k / m == i) = [] := by
        rw [List.filter_eq_nil_iff]
        intro x hx
        rcases List.mem_map.mp hx with ⟨j, hj, rfl⟩
        have hjm : j < m := List.mem_range.mp hj
        have hxv : (n * m + j) / m = n + j / m := hval j hjm
        simp only [hxv]
        have hne : n + j / m ≠ i :=
          Nat.ne_of_gt (Nat.lt_of_lt_of_le hin (Nat.le_add_right n (j / m)))
        simpa using hne
      rw [h2, ih hin]
      simp
    · have hieq : i = n := by omega
      subst hieq
      have h1 : (List.range (i * m)).filter (fun k => k / m == i) = [] := by
        rw [List.filter_eq_nil_iff]
        intro x hx
        have hxlt : x < i * m := List.mem_range.mp hx
        have hlt : x / m < i := by
          rw [Nat.div_lt_iff_lt_mul hm]
          omega
        have hne : x / m ≠ i := Nat.ne_of_lt hlt
        simpa using hne
      have h2 : ((List.range m).map (fun j => i * m + j)).filter (fun k => k / m == i) =
          (List.range m).map (fun j => i * m + j) := by
        rw [List.filter_eq_self]
        intro x hx
        rcases List.mem_map.mp hx with ⟨j, hj, rfl⟩
        have hjm : j < m := List.mem_range.mp hj
        have hxv : (i * m + j) / m = i + j / m := hval j hjm
        have hj0 : j / m = 0 := Nat.div_eq_of_lt hjm
        simp [hxv, hj0]
      rw [h1, h2]
      simp

theorem gridCount_zeroCfg (n m i : Nat) (hm : 0 < m) (hi : i < n) :
    gridCount (zeroCfg n) (n * m) i = m := by
  unfold gridCount
  have hcong : (List.range (n * m)).filter
        (fun k => selectPrizeIdx (zeroCfg n) (gridPoint k (n * m)) == i) =
      (List.range (n * m)).filter (fun k => k / m == i) := by
    apply List.filter_congr
    intro k hk
    rw [select_zeroCfg n m k hm (List.mem_range.mp hk)]
  rw [hcong, count_div m i hm n hi]

theorem select_negCfg (u : ℚ) : selectPrizeIdx negCfg u = 0 := by
  have h1 : effWeight (-1) = -1 := by norm_num [effWeight]
  simp only [selectPrizeIdx, negCfg, List.map_cons, List.map_nil, h1, List.sum_cons,
    List.sum_nil, selectWalk]
  split_ifs with h2 h3
  · rfl
  · exfalso
    push_cast at h2 h3
    linarith
  · rfl

/-- Claim C5, counterexample.  `negCfg = [(a,-1),(b,-1)]` has clamped
total `Σ max(weight,0) = 0 ≤ 0`, yet the selector is not uniform on the
4-point midpoint draw grid: the loop's running sum never reaches a
non-positive value before the walk ends, so the `wheelItems[0]` fallback
selects the first item for every draw and the second item is never
selected.  The code has no degenerate-weights uniform branch. -/
theorem c5_counterexample :
    specTotalClamped negCfg ≤ 0 ∧ negCfg ≠ [] ∧ ¬ uniformOnGrid negCfg 4 := by
  refine ⟨by simp [specTotalClamped, negCfg], by simp [negCfg], ?_⟩
  intro h
  have hlen : negCfg.length = 2 := rfl
  have h1 := h 1 (by rw [hlen]; omega)
  have hzero : gridCount negCfg 4 1 = 0 := by
    have hfil : (List.range 4).filter (fun k => selectPrizeIdx negCfg (gridPoint k 4) == 1) = [] := by
      rw [List.filter_eq_nil_iff]
      intro x _
      rw [select_negCfg]
      simp
    unfold gridCount
    rw [hfil]
    rfl
  rw [hzero, hlen] at h1
  omega

/-- Claim C5, amended: when every configured weight is zero the selector
IS uniform — each weight is coerced to the default 10 by `|| 10`, and on
any midpoint grid of `n*m` draws each of the `n` items is selected
exactly `m` times; but for negative weights (clamped total still `≤ 0`)
there is no uniform fallback, and on `negCfg` the first item is selected
for every rational draw whatsoever. -/
theorem c5_theorem :
    (∀ n m : Nat, 0 < m → uniformOnGrid (zeroCfg n) (n * m)) ∧
      ∀ u : ℚ, selectPrizeIdx negCfg u = 0 := by
  constructor
  · intro n m hm i hi
    have hlen : (zeroCfg n).length = n := by simp [zeroCfg]
    rw [hlen] at hi
    rw [gridCount_zeroCfg n m i hm hi, hlen]
    ring
  · exact select_negCfg

/-- Witness for C5's amended theorem at `n = 2`, `m = 1`. -/
theorem c5_witness : 0 < 1 ∧ uniformOnGrid (zeroCfg 2) (2 * 1) :=
  ⟨Nat.one_pos, c5_theorem.1 2 1 Nat.one_pos⟩

/-! Claims about the fallback resolution path. -/

/-- Claim C1, counterexample.  A pending fallback task whose spin already
has a matching lead: `checkFallback` DELETES the task document
(`fallbackRef.delete()`, `src/index.js` line 757) instead of
transitioning it to a retained `resolved-full` state — afterwards the
fallbacks collection is empty, so no task in any state exists.  No
fallback notification is emitted, but the claimed transition to
`resolved-full` does not happen. -/
theorem c1_counterexample :
    (checkFallback ⟨2, 2, true⟩ true
        ⟨[], [], [], [(7, ⟨7, 5, "nm", "ph"⟩)], [(5, ⟨7, "pz", false, FbStatus.pending⟩)]⟩
        5).1.fallbacks = [] ∧
      (checkFallback ⟨2, 2, true⟩ true
        ⟨[], [], [], [(7, ⟨7, 5, "nm", "ph"⟩)], [(5, ⟨7, "pz", false, FbStatus.pending⟩)]⟩
        5).2 = [] := by
  decide

/-- Claim C1, amended: whenever a lead matching the spin exists at
resolution time, any invocation of `checkFallback` (timer or sweep,
before or after `dueAt`) emits NO fallback notification and leaves no
task document for that spin in the store (the pending task is deleted
rather than retained as `resolved-full`). -/
theorem c1_theorem (bot : BotData) (notifyOk : Bool) (s : Store) (sid : Nat)
    (hlead : leadExistsFor s sid = true) :
    (checkFallback bot notifyOk s sid).2 = [] ∧
      lookupKey ((checkFallback bot notifyOk s sid).1).fallbacks sid = none := by
  unfold checkFallback
  cases hl : lookupKey s.fallbacks sid with
  | none => exact ⟨rfl, hl⟩
  | some fb => simp [hlead, lookup_removeKey]

/-- Witness for C1's amended theorem on a concrete store. -/
theorem c1_witness :
    (checkFallback ⟨2, 2, true⟩ false
        ⟨[], [], [], [(8, ⟨8, 6, "n", "p"⟩)], [(6, ⟨8, "w", false, FbStatus.pending⟩)]⟩ 6).2 = [] ∧
      lookupKey ((checkFallback ⟨2, 2, true⟩ false
        ⟨[], [], [], [(8, ⟨8, 6, "n", "p"⟩)], [(6, ⟨8, "w", false, FbStatus.pending⟩)]⟩
        6).1).fallbacks 6 = none :=
  c1_theorem ⟨2, 2, true⟩ false
    ⟨[], [], [], [(8, ⟨8, 6, "n", "p"⟩)], [(6, ⟨8, "w", false, FbStatus.pending⟩)]⟩ 6 (by decide)

/-- Claim C2: a pending, unsent fallback task with no matching lead,
resolved with a configured leads channel and a working notifier, emits
exactly one fallback notification and is marked `sent`; a second
invocation of the resolution path on the result — with the notifier in
any state — changes nothing and emits nothing (the path re-reads the
task and the `sent` flag makes the send branch unreachable). -/
theorem c2_theorem (bot : BotData) (ok2 : Bool) (s : Store) (sid : Nat) (fb : FallbackTask)
    (htask : lookupKey s.fallbacks sid = some fb)
    (hunsent : fb.sent = false)
    (hnolead : leadExistsFor s sid = false)
    (hchan : bot.leadsChannel = true) :
    (checkFallback bot true s sid).2 = [Notif.fallback sid] ∧
      lookupKey ((checkFallback bot true s sid).1).fallbacks sid =
        some { fb with sent := true, status := FbStatus.sent } ∧
      checkFallback bot ok2 (checkFallback bot true s sid).1 sid =
        ((checkFallback bot true s sid).1, []) := by
  have hstep : checkFallback bot true s sid =
      ({ s with fallbacks :=
          setKey s.fallbacks sid { fb with sent := true, status := FbStatus.sent } },
        [Notif.fallback sid]) := by
    unfold checkFallback
    rw [htask]
    simp [hnolead, hunsent, hchan]
  refine ⟨by rw [hstep], ?_, ?_⟩
  · rw [hstep]
    simp [lookup_setKey]
  · rw [hstep]
    simp only [leadExistsFor] at hnolead
    simp [checkFallback, lookup_setKey, leadExistsFor, hnolead]

/-- Witness for C2 on a concrete store. -/
theorem c2_witness :
    (checkFallback ⟨2, 2, true⟩ true ⟨[], [], [], [], [(5, ⟨7, "pz", false, FbStatus.pending⟩)]⟩
        5).2 = [Notif.fallback 5] ∧
      lookupKey ((checkFallback ⟨2, 2, true⟩ true
        ⟨[], [], [], [], [(5, ⟨7, "pz", false, FbStatus.pending⟩)]⟩ 5).1).fallbacks 5 =
        some ⟨7, "pz", true, FbStatus.sent⟩ ∧
      checkFallback ⟨2, 2, true⟩ false
          (checkFallback ⟨2, 2, true⟩ true
            ⟨[], [], [], [], [(5, ⟨7, "pz", false, FbStatus.pending⟩)]⟩ 5).1 5 =
        ((checkFallback ⟨2, 2, true⟩ true
            ⟨[], [], [], [], [(5, ⟨7, "pz", false, FbStatus.pending⟩)]⟩ 5).1, []) :=
  c2_theorem ⟨2, 2, true⟩ false ⟨[], [], [], [], [(5, ⟨7, "pz", false, FbStatus.pending⟩)]⟩ 5
    ⟨7, "pz", false, FbStatus.pending⟩ rfl rfl rfl rfl

/-- Claim C8, counterexample.  The terminal record is NOT retained: a
pending task whose spin has a lead is present before resolution and gone
from the store after `checkFallback` runs (`fallbackRef.delete()`), so
the record-retained-for-audit part of the claim fails on the code. -/
theorem c8_counterexample :
    lookupKey (⟨[], [], [], [(3, ⟨3, 11, "n", "p"⟩)],
        [(11, ⟨3, "pz", false, FbStatus.pending⟩)]⟩ : Store).fallbacks 11 =
      some ⟨3, "pz", false, FbStatus.pending⟩ ∧
      lookupKey ((checkFallback ⟨2, 2, true⟩ true
        ⟨[], [], [], [(3, ⟨3, 11, "n", "p"⟩)], [(11, ⟨3, "pz", false, FbStatus.pending⟩)]⟩
        11).1).fallbacks 11 = none := by
  decide

/-- Claim C8, amended: under the resolution path a surviving task record
never reverts — any task document still present after `checkFallback` is
either unchanged or has moved from unsent to `sent` (never `sent` back
to pending, never both) — but the lead-present outcome DELETES the task
document instead of retaining a `resolved-full` record. -/
theorem c8_theorem (bot : BotData) (ok : Bool) (s : Store) (sid q : Nat) (fb' : FallbackTask) :
    (lookupKey ((checkFallback bot ok s sid).1).fallbacks q = some fb' →
      ∃ fb, lookupKey s.fallbacks q = some fb ∧
        (fb' = fb ∨ (fb.sent = false ∧ fb' = { fb with sent := true, status := FbStatus.sent }))) ∧
      (leadExistsFor s sid = true →
        lookupKey ((checkFallback bot ok s sid).1).fallbacks sid = none) := by
  unfold checkFallback
  cases hl : lookupKey s.fallbacks sid with
  | none => exact ⟨fun h => ⟨fb', h, .inl rfl⟩, fun _ => hl⟩
  | some fb0 =>
    cases hlead : leadExistsFor s sid with
    | true =>
      simp only [hlead, Bool.not_true, Bool.false_and, Bool.false_eq_true, if_false, if_true]
      constructor
      · intro h
        rw [lookup_removeKey] at h
        by_cases hq : q = sid
        · rw [if_pos hq] at h
          cases h
        · rw [if_neg hq] at h
          exact ⟨fb', h, .inl rfl⟩
      · intro _
        rw [lookup_removeKey, if_pos rfl]
    | false =>
      cases hsent : fb0.sent with
      | true =>
        simp only [hlead, hsent, Bool.not_false, Bool.not_true, Bool.true_and,
          Bool.false_eq_true, if_false]
        exact ⟨fun h => ⟨fb', h, .inl rfl⟩, fun hc => by cases hc⟩
      | false =>
        cases hchan : bot.leadsChannel with
        | false =>
          simp only [hlead, hsent, Bool.not_false, Bool.true_and, Bool.false_eq_true,
            hchan, if_true, if_false]
          exact ⟨fun h => ⟨fb', h, .inl rfl⟩, fun hc => by cases hc⟩
        | true =>
          cases ok with
          | false =>
            simp only [hlead, hsent, Bool.not_false, Bool.true_and, Bool.false_eq_true,
              hchan, if_true, if_false]
            exact ⟨fun h => ⟨fb', h, .inl rfl⟩, fun hc => by cases hc⟩
          | true =>
            simp only [hlead, hsent, Bool.not_false, Bool.true_and, hchan, if_true]
            constructor
            · intro h
              rw [lookup_setKey] at h
              by_cases hq : q = sid
              · rw [if_pos hq] at h
                injection h with hfb
                exact ⟨fb0, hq ▸ hl, .inr ⟨hsent, hfb.symm⟩⟩
              · rw [if_neg hq] at h
                exact ⟨fb', h, .inl rfl⟩
            · intro hc
              cases hc

/-- Witness for C8's amended theorem: resolution of spin 11 (whose lead
exists) leaves the unrelated sent task 12 untouched and deletes task
11. -/
theorem c8_witness :
    (∃ fb, lookupKey (⟨[], [], [], [(3, ⟨3, 11, "n", "p"⟩)],
        [(11, ⟨3, "pz", false, FbStatus.pending⟩), (12, ⟨4, "qz", true, FbStatus.sent⟩)]⟩ :
          Store).fallbacks 12 = some fb ∧
        ((⟨4, "qz", true, FbStatus.sent⟩ : FallbackTask) = fb ∨
          (fb.sent = false ∧ (⟨4, "qz", true, FbStatus.sent⟩ : FallbackTask) =
            { fb with sent := true, status := FbStatus.sent }))) ∧
      lookupKey ((checkFallback ⟨2, 2, true⟩ true
        ⟨[], [], [], [(3, ⟨3, 11, "n", "p"⟩)],
          [(11, ⟨3, "pz", false, FbStatus.pending⟩), (12, ⟨4, "qz", true, FbStatus.sent⟩)]⟩
        11).1).fallbacks 11 = none := by
  have h := c8_theorem ⟨2, 2, true⟩ true
    ⟨[], [], [], [(3, ⟨3, 11, "n", "p"⟩)],
      [(11, ⟨3, "pz", false, FbStatus.pending⟩), (12, ⟨4, "qz", true, FbStatus.sent⟩)]⟩
    11 12 ⟨4, "qz", true, FbStatus.sent⟩
  exact ⟨h.1 (by decide), h.2 (by decide)⟩

/-- Claim C9, counterexample.  In the fallback resolution path a
notifier failure does NOT leave the state transition intact: with a
configured channel, a pending unsent task and no lead, a failing
`sendMessage` throw is caught by `checkFallback`'s outer `catch` BEFORE
the `sent` update runs, so the store is unchanged and the task is still
pending/unsent — the claimed completed transition to `resolved-fallback`
does not happen. -/
theorem c9_counterexample :
    checkFallback ⟨2, 2, true⟩ false ⟨[], [], [], [], [(21, ⟨9, "pz", false, FbStatus.pending⟩)]⟩
        21 =
      (⟨[], [], [], [], [(21, ⟨9, "pz", false, FbStatus.pending⟩)]⟩, []) ∧
      lookupKey (⟨[], [], [], [], [(21, ⟨9, "pz", false, FbStatus.pending⟩)]⟩ : Store).fallbacks
        21 = some ⟨9, "pz", false, FbStatus.pending⟩ := by
  decide

/-- Claim C9, amended: a notifier failure is swallowed in both
notification-sending paths and neither path propagates an error; in the
lead-submission path the lead write and the `isLeadCollected` flip
happen before the notification attempt, so they persist and the route
still reports success; but in the fallback resolution path the failure
aborts the `sent` transition — the task stays pending and unsent (to be
retried by the sweep) rather than completing `resolved-fallback`. -/
theorem c9_theorem (bot : BotData) (s s2 : Store) (uid sid sid2 : Nat) (nm ph : String)
    (spin : SpinRec) (fb : FallbackTask) :
    (lookupKey s.spins sid = some spin → spin.userId = uid →
      submitLead bot false s uid sid nm ph =
        .ok ({ s with leads := setKey s.leads uid ⟨uid, sid, nm, ph⟩, spins := setKey s.spins sid { spin with isLeadCollected := true } }, [])) ∧
      (bot.leadsChannel = true → leadExistsFor s2 sid2 = false →
        lookupKey s2.fallbacks sid2 = some fb → fb.sent = false →
        checkFallback bot false s2 sid2 = (s2, [])) := by
  constructor
  · intro hspin howner
    simp [submitLead, hspin, howner]
  · intro hchan hnolead htask hunsent
    unfold checkFallback
    rw [htask]
    simp [hnolead, hunsent, hchan]

/-- Witness for C9's amended theorem on concrete stores. -/
theorem c9_witness :
    (submitLead ⟨2, 2, true⟩ false ⟨[], [(4, ⟨9, "pz", false⟩)], [], [], []⟩ 9 4 "nm" "ph" =
      .ok (⟨[], [(4, ⟨9, "pz", true⟩)], [], [(9, ⟨9, 4, "nm", "ph"⟩)], []⟩, [])) ∧
      checkFallback ⟨2, 2, true⟩ false
          ⟨[], [], [], [], [(22, ⟨9, "pz", false, FbStatus.pending⟩)]⟩ 22 =
        (⟨[], [], [], [], [(22, ⟨9, "pz", false, FbStatus.pending⟩)]⟩, []) := by
  have h := c9_theorem ⟨2, 2, true⟩ ⟨[], [(4, ⟨9, "pz", false⟩)], [], [], []⟩
    ⟨[], [], [], [], [(22, ⟨9, "pz", false, FbStatus.pending⟩)]⟩ 9 4 22 "nm" "ph"
    ⟨9, "pz", false⟩ ⟨9, "pz", false, FbStatus.pending⟩
  exact ⟨h.1 rfl rfl, h.2 rfl rfl rfl rfl⟩

/-! Claims about quota accounting and the referral graph. -/

/-- Claim C3: the spin route rejects with the quota error exactly when
the status route's `attemptsLeft` — recomputed from the stored spin
counter and referral count of the current store, not from any prior
read — is zero; and in the concrete scenario base=2, bonus=2, one
referral (quota 4), four consecutive spins succeed and the fifth is
rejected. -/
theorem c3_theorem :
    (∀ (bot : BotData) (s : Store) (uid : Nat) (rid : Option Nat) (t : Nat) (pz : String),
      isQuotaErr (recordSpin bot s uid rid t pz) = true ↔ statusAttemptsLeft bot s uid = 0) ∧
      statusAttemptsLeft ⟨2, 2, true⟩ ⟨[], [], [(7, 9)], [], []⟩ 7 = 4 ∧
      (runSpins ⟨2, 2, true⟩ 7 "pz" [1, 2, 3, 4] ⟨[], [], [(7, 9)], [], []⟩).isSome = true ∧
      runSpins ⟨2, 2, true⟩ 7 "pz" [1, 2, 3, 4, 5] ⟨[], [], [(7, 9)], [], []⟩ = none := by
  refine ⟨?_, by decide, by decide, by decide⟩
  intro bot s uid rid t pz
  by_cases h : spinsTotalOf s uid ≥ attemptsGranted bot s uid
  · simp only [recordSpin, if_pos h, isQuotaErr, statusAttemptsLeft]
    constructor
    · intro _
      omega
    · intro _
      trivial
  · simp only [recordSpin, if_neg h, isQuotaErr, statusAttemptsLeft]
    constructor
    · intro hc
      cases hc
    · intro hc
      omega

/-- Witness for C3's quota equivalence at a concrete exhausted user. -/
theorem c3_witness : statusAttemptsLeft ⟨2, 2, true⟩ ⟨[(7, ⟨2⟩)], [], [], [], []⟩ 7 = 0 :=
  (c3_theorem.1 ⟨2, 2, true⟩ ⟨[(7, ⟨2⟩)], [], [], [], []⟩ 7 none 1 "x").mp (by decide)

/-- Claim C4, counterexample.  With a configured `baseAttempts = 0` the
status route's `botData.baseAttempts || 2` coerces the falsy 0 to the
default 2, so for a fresh user the route returns 2 while the claimed
formula over the raw non-negative configured values gives
`max(0, 0 + 2*0 - 0) = 0`. -/
theorem c4_counterexample :
    statusAttemptsLeft ⟨0, 2, true⟩ ⟨[], [], [], [], []⟩ 7 = 2 ∧
      specAttemptsLeft 0 2 (referralCountOf ⟨[], [], [], [], []⟩ 7)
        (spinsTotalOf ⟨[], [], [], [], []⟩ 7) = 0 ∧
      statusAttemptsLeft ⟨0, 2, true⟩ ⟨[], [], [], [], []⟩ 7 ≠
        specAttemptsLeft 0 2 (referralCountOf ⟨[], [], [], [], []⟩ 7)
          (spinsTotalOf ⟨[], [], [], [], []⟩ 7) := by
  refine ⟨?_, ?_, ?_⟩ <;>
    simp [statusAttemptsLeft, specAttemptsLeft, attemptsGranted, jsOr, referralCountOf,
      spinsTotalOf, lookupKey]

/-- Claim C4, amended: the status route's `attemptsLeft` equals
`max(0, base' + bonus' * referrals - spins)` and is always non-negative,
where `base'` and `bonus'` are the configured values AFTER the JS `|| 2`
defaulting (a configured 0 or absent field becomes 2); over the raw
configured values the formula fails at 0. -/
theorem c4_theorem (bot : BotData) (s : Store) (uid : Nat) :
    statusAttemptsLeft bot s uid =
      specAttemptsLeft (jsOr bot.baseAttempts 2) (jsOr bot.referralBonus 2)
        (referralCountOf s uid) (spinsTotalOf s uid) ∧
      0 ≤ statusAttemptsLeft bot s uid := by
  constructor
  · unfold statusAttemptsLeft specAttemptsLeft attemptsGranted
    push_cast
    ring_nf
  · exact le_max_left 0 _

/-- Claim C6: from a store without the edge, two successive
`addReferral(a,b)` calls create the edge exactly once — created then
not-created, second call leaves the edge set unchanged — the referrer's
count rises by exactly one, and the at-most-one-edge-per-ordered-pair
invariant is preserved. -/
theorem c6_theorem (edges : List RefEdge) (a b x y : Nat) (hab : a ≠ b)
    (habs : edges.any (fun e => e.referrerId == a && e.referredId == b) = false) :
    (FirebaseService.addReferral edges a b).1 = true ∧
      (FirebaseService.addReferral (FirebaseService.addReferral edges a b).2 a b).1 = false ∧
      (FirebaseService.addReferral (FirebaseService.addReferral edges a b).2 a b).2 =
        (FirebaseService.addReferral edges a b).2 ∧
      FirebaseService.countReferrals (FirebaseService.addReferral edges a b).2 a =
        FirebaseService.countReferrals edges a + 1 ∧
      (FirebaseService.pairCount edges x y ≤ 1 →
        FirebaseService.pairCount (FirebaseService.addReferral edges a b).2 x y ≤ 1) := by
  have h1 : FirebaseService.addReferral edges a b = (true, edges ++ [⟨a, b⟩]) := by
    unfold FirebaseService.addReferral
    rw [if_neg (by simp [habs])]
  have h2 : (edges ++ [(⟨a, b⟩ : RefEdge)]).any
      (fun e => e.referrerId == a && e.referredId == b) = true := by
    rw [List.any_append]
    simp
  refine ⟨by rw [h1], ?_, ?_, ?_, ?_⟩
  · rw [h1]
    unfold FirebaseService.addReferral
    rw [if_pos h2]
  · rw [h1]
    unfold FirebaseService.addReferral
    rw [if_pos h2]
  · rw [h1]
    unfold FirebaseService.countReferrals
    rw [List.filter_append]
    simp
  · intro hle
    rw [h1]
    unfold FirebaseService.pairCount at hle ⊢
    rw [List.filter_append, List.length_append]
    by_cases hxy : x = a ∧ y = b
    · obtain ⟨hx, hy⟩ := hxy
      subst hx
      subst hy
      have h0 : (edges.filter (fun e => e.referrerId == x && e.referredId == y)).length = 0 := by
        rw [List.length_eq_zero, List.filter_eq_nil_iff]
        intro e he
        have := List.any_eq_false.mp habs e he
        simpa using this
      simp [h0]
    · have hone : ((⟨a, b⟩ : RefEdge) :: []).filter
          (fun e => e.referrerId == x && e.referredId == y) = [] := by
        rw [List.filter_eq_nil_iff]
        intro e he
        rcases List.mem_singleton.mp he with rfl
        simp only [Bool.and_eq_true, beq_iff_eq]
        intro hc
        exact hxy ⟨hc.1.symm, hc.2.symm⟩
      rw [hone]
      simpa using hle

/-- Witness for C6 at a concrete empty edge set. -/
theorem c6_witness :
    (FirebaseService.addReferral [] 3 4).1 = true ∧
      (FirebaseService.addReferral (FirebaseService.addReferral [] 3 4).2 3 4).1 = false ∧
      (FirebaseService.addReferral (FirebaseService.addReferral [] 3 4).2 3 4).2 =
        (FirebaseService.addReferral [] 3 4).2 ∧
      FirebaseService.countReferrals (FirebaseService.addReferral [] 3 4).2 3 =
        FirebaseService.countReferrals [] 3 + 1 ∧
      (FirebaseService.pairCount [] 3 4 ≤ 1 →
        FirebaseService.pairCount (FirebaseService.addReferral [] 3 4).2 3 4 ≤ 1) :=
  c6_theorem [] 3 4 3 4 (by decide) (by decide)

/-- Claim C7, counterexample.  `FirebaseService.addReferral` has no
self-referral check at all: called with `referrerId = referredId = 3` on
an empty edge set it succeeds (no `InvalidInput`) and inserts a
self-edge. -/
theorem c7_counterexample :
    FirebaseService.addReferral [] 3 3 = (true, [⟨3, 3⟩]) := by
  decide

/-- Claim C7, amended: self-referrals do not fail with `InvalidInput`.
The spin route silently skips the referral credit when
`referrerId === userId` — the spin succeeds and the referral collection
is unchanged — while the service-level `addReferral` performs no
self-check and inserts a self-edge when called directly. -/
theorem c7_theorem (bot : BotData) (s : Store) (uid t : Nat) (pz : String) (a : Nat)
    (h : spinsTotalOf s uid < attemptsGranted bot s uid) :
    (recordSpin bot s uid (some uid) t pz).map (fun r => r.2.referrals) = .ok s.referrals ∧
      FirebaseService.addReferral [] a a = (true, [⟨a, a⟩]) := by
  constructor
  · have hlt : ¬ (spinsTotalOf s uid ≥ attemptsGranted bot s uid) := by omega
    simp [recordSpin, hlt, Except.map]
  · simp [FirebaseService.addReferral]

/-- Witness for C7's amended theorem at a fresh user. -/
theorem c7_witness :
    (recordSpin ⟨2, 2, true⟩ ⟨[], [], [], [], []⟩ 7 (some 7) 1 "x").map
        (fun r => r.2.referrals) = .ok (⟨[], [], [], [], []⟩ : Store).referrals ∧
      FirebaseService.addReferral [] 5 5 = (true, [⟨5, 5⟩]) :=
  c7_theorem ⟨2, 2, true⟩ ⟨[], [], [], [], []⟩ 7 1 "x" 5 (by decide)

theorem mem_setKey_setKey_same {α : Type} {l : List (Nat × α)} {k : Nat} {v1 v2 : α}
    {p : Nat × α} (hp : p ∈ setKey (setKey l k v1) k v2) : p ∈ l ∨ p = (k, v2) := by
  induction l with
  | nil =>
    simp [setKey] at hp
    exact .inr hp
  | cons q t ih =>
    by_cases hq : q.1 = k
    · rw [setKey, if_pos hq] at hp
      rw [show setKey ((k, v1) :: t) k v2 = (k, v2) :: t from by rw [setKey, if_pos rfl]] at hp
      rcases List.mem_cons.mp hp with h1 | h1
      · exact .inr h1
      · exact .inl (List.mem_cons_of_mem q h1)
    · rw [setKey, if_neg hq] at hp
      rw [show setKey (q :: setKey t k v1) k v2 = q :: setKey (setKey t k v1) k v2 from by
        rw [setKey, if_neg hq]] at hp
      rcases List.mem_cons.mp hp with h1 | h1
      · exact .inl (h1 ▸ List.mem_cons_self q t)
      · rcases ih h1 with h2 | h2
        · exact .inl (List.mem_cons_of_mem q h2)
        · exact .inr h2

/-- Claim C10: the lead store is keyed by the USER id and written with
merge semantics, so a user has at most one lead document; submitting a
lead for a later spin overwrites the user's previous lead record, and
afterwards the resolution path's `where spinId ==` query for the earlier
spin finds nothing (given no other user's lead referenced that spin —
only the spin's owner can submit a lead for it). -/
theorem c10_theorem (bot : BotData) (ok1 ok2 : Bool) (s : Store) (uid sid1 sid2 : Nat)
    (nm1 ph1 nm2 ph2 : String) (spin1 spin2 : SpinRec) (s1 s2 : Store) (n1 n2 : List Notif)
    (hspin1 : lookupKey s.spins sid1 = some spin1)
    (howner1 : spin1.userId = uid)
    (hne : sid2 ≠ sid1)
    (hfresh : ∀ p ∈ s.leads, p.2.spinId ≠ sid1)
    (h1 : submitLead bot ok1 s uid sid1 nm1 ph1 = .ok (s1, n1))
    (hspin2 : lookupKey s1.spins sid2 = some spin2)
    (howner2 : spin2.userId = uid)
    (h2 : submitLead bot ok2 s1 uid sid2 nm2 ph2 = .ok (s2, n2)) :
    lookupKey s2.leads uid = some ⟨uid, sid2, nm2, ph2⟩ ∧
      leadExistsFor s2 sid1 = false ∧
      (keyCount s.leads uid ≤ 1 → keyCount s2.leads uid = 1) := by
  simp only [submitLead, hspin1, howner1, ne_eq, not_true_eq_false, if_false,
    Except.ok.injEq, Prod.mk.injEq] at h1
  simp only [submitLead, hspin2, howner2, ne_eq, not_true_eq_false, if_false,
    Except.ok.injEq, Prod.mk.injEq] at h2
  obtain ⟨hs1, -⟩ := h1
  obtain ⟨hs2, -⟩ := h2
  have hs1l : s1.leads = setKey s.leads uid ⟨uid, sid1, nm1, ph1⟩ := by
    rw [← hs1]
  have hs2l : s2.leads = setKey s1.leads uid ⟨uid, sid2, nm2, ph2⟩ := by
    rw [← hs2]
  refine ⟨?_, ?_, ?_⟩
  · rw [hs2l, lookup_setKey, if_pos rfl]
  · rw [leadExistsFor, List.any_eq_false]
    intro p hp
    rw [hs2l, hs1l] at hp
    rcases mem_setKey_setKey_same hp with h | h
    · have := hfresh p h
      simpa using this
    · subst h
      simpa using hne
  · intro hle
    rw [hs2l, hs1l]
    exact keyCount_setKey_le_one _ uid _
      (le_of_eq (keyCount_setKey_le_one s.leads uid _ hle))

/-- Witness for C10 on a concrete two-spin store. -/
theorem c10_witness :
    lookupKey (⟨[], [(1, ⟨7, "p", true⟩), (2, ⟨7, "q", true⟩)], [], [(7, ⟨7, 2, "b", "y"⟩)], []⟩ :
        Store).leads 7 = some ⟨7, 2, "b", "y"⟩ ∧
      leadExistsFor ⟨[], [(1, ⟨7, "p", true⟩), (2, ⟨7, "q", true⟩)], [], [(7, ⟨7, 2, "b", "y"⟩)], []⟩
        1 = false ∧
      keyCount (⟨[], [(1, ⟨7, "p", true⟩), (2, ⟨7, "q", true⟩)], [], [(7, ⟨7, 2, "b", "y"⟩)], []⟩ :
        Store).leads 7 = 1 := by
  have h := c10_theorem ⟨2, 2, true⟩ false false
    ⟨[], [(1, ⟨7, "p", false⟩), (2, ⟨7, "q", false⟩)], [], [], []⟩ 7 1 2 "a" "x" "b" "y"
    ⟨7, "p", false⟩ ⟨7, "q", false⟩
    ⟨[], [(1, ⟨7, "p", true⟩), (2, ⟨7, "q", false⟩)], [], [(7, ⟨7, 1, "a", "x"⟩)], []⟩
    ⟨[], [(1, ⟨7, "p", true⟩), (2, ⟨7, "q", true⟩)], [], [(7, ⟨7, 2, "b", "y"⟩)], []⟩
    [] [] rfl rfl (by decide) (by simp) rfl rfl rfl rfl
  exact ⟨h.1, h.2.1, h.2.2 (by decide)⟩

end Wheel
